import Mathlib

/-!
Verification development for the inventory view engine and stock-move
handler of the em-inventory application.  The definitions below are a
shallow embedding of the TypeScript source: JavaScript numbers are
modelled as `Int` (all quantities and usages in the program are
integers) with `ℚ` for the two places the code divides, strings as
`String`, absent optional fields as `none`, and JavaScript falsiness
of strings (`undefined` or `""`) via the `jsOr*`/`jsTruthy` helpers.
`localeCompare` is modelled as comparison in the `String` linear
order, and the (stable) `Array.prototype.sort` as insertion sort.
-/

namespace EmInventory

/-! ## Data model (`types.ts`) -/

structure Usage where
  year : Int
  usage : Int
deriving DecidableEq

structure InventoryItem where
  id : String
  description : String
  category : Option String
  subCategory : Option String
  priorUsage : Option (List Usage)
  lowAlertQuantity : Option Int
deriving DecidableEq

structure Location where
  id : String
  name : String
  subLocationPrompt : Option String
deriving DecidableEq

inductive StockSource
  | OH
  | PO
deriving DecidableEq

structure Stock where
  itemId : String
  locationId : String
  quantity : Int
  subLocationDetail : Option String
  source : StockSource
  poNumber : Option String
  dateReceived : Option String
deriving DecidableEq

/-- A stock row joined with its resolved location name
(the spread `{...s, locationName}` in `mappedItems`). -/
structure StockWithName extends Stock where
  locationName : String
deriving DecidableEq

/-! ## JavaScript semantics helpers -/

/-- `v || d` for a string `v`: the empty string is falsy. -/
def jsOrStr (v d : String) : String :=
  if v = "" then d else v

/-- `v || d` where `v` is a possibly-`undefined` string and `d` a string. -/
def jsOrOptStr (v : Option String) (d : String) : String :=
  match v with
  | none => d
  | some s => if s = "" then d else s

/-- `a || b` where both sides are possibly-`undefined` strings. -/
def jsOrOptOpt (a b : Option String) : Option String :=
  match a with
  | none => b
  | some s => if s = "" then b else some s

/-- Truthiness of a possibly-`undefined` string. -/
def jsTruthy (v : Option String) : Bool :=
  match v with
  | none => false
  | some s => s ≠ ""

/-- Whether `pat` occurs at the head of `l`. -/
def startsOf : List Char → List Char → Bool
  | [], _ => true
  | _ :: _, [] => false
  | p :: ps, c :: cs => p == c && startsOf ps cs

/-- Whether `pat` occurs contiguously anywhere in `l`. -/
def occursIn (pat : List Char) : List Char → Bool
  | [] => startsOf pat []
  | c :: cs => startsOf pat (c :: cs) || occursIn pat cs

/-- `String.prototype.includes`: substring containment. -/
def jsIncludes (s pat : String) : Bool :=
  occursIn pat.toList s.toList

/-- `String.prototype.toUpperCase` (character-wise upper-casing). -/
def jsToUpper (s : String) : String :=
  String.mk (s.toList.map Char.toUpper)

/-- `a.localeCompare(b)` modelled in the `String` linear order: negative,
zero or positive according to the comparison result. -/
def localeCompare (a b : String) : Int :=
  if a < b then -1 else if b < a then 1 else 0

/-- `Number.prototype.toFixed(1)` on a non-negative rational: round to
the nearest tenth, ties towards the larger value. -/
def toFixedOneNonneg (q : ℚ) : String :=
  let n : ℕ := (⌊q * 10 + 1 / 2⌋).toNat
  toString (n / 10) ++ "." ++ toString (n % 10)

/-- `Number.prototype.toFixed(1)` as specified by ECMAScript (sign
peeled off first, then the non-negative rounding rule). -/
def toFixedOne (q : ℚ) : String :=
  if q < 0 then "-" ++ toFixedOneNonneg (-q) else toFixedOneNonneg q

/-! ## Derived-metrics computation (`mappedItems` in the inventory table) -/

/-- `calculateAverageUsage`: arithmetic mean of the usage entries,
`0` for a missing or empty history. -/
def calculateAverageUsage : Option (List Usage) → ℚ
  | none => 0
  | some l =>
    if l.length = 0 then 0
    else ((l.map (·.usage)).sum : ℚ) / (l.length : ℚ)

/-- The id→name map built from the location list
(`new Map(locations.map(loc => [loc.id, loc.name]))`; for duplicate
ids the last entry wins, as in a JavaScript `Map`). -/
def locationLookup (locations : List Location) (lid : String) : Option String :=
  (locations.reverse.find? (fun l => l.id == lid)).map (·.name)

/-- Lookup in the `categoryColors` object (later bindings shadow earlier ones). -/
def ccLookup (cc : List (String × String)) (k : String) : Option String :=
  (cc.reverse.find? (fun p => p.1 == k)).map (·.2)

/-- `getItemColor`: prefer the sub-category color, then the category color. -/
def getItemColor (cc : List (String × String)) (item : InventoryItem) : Option String :=
  if jsTruthy item.subCategory && jsTruthy (ccLookup cc (item.subCategory.getD "")) then
    ccLookup cc (item.subCategory.getD "")
  else if jsTruthy item.category && jsTruthy (ccLookup cc (item.category.getD "")) then
    ccLookup cc (item.category.getD "")
  else none

/-- The derived record the engine produces for one item (`MappedItem`). -/
structure MappedItem where
  id : String
  description : String
  category : String
  subCategory : Option String
  priorUsage : Option (List Usage)
  lowAlertQuantity : Option Int
  quantityInView : Int
  totalQuantity : Int
  etr : String
  locationsWithStock : List StockWithName
  stockTooltip : String
  accentColor : Option String
  isLowStock : Bool
deriving DecidableEq

/-- The body of the `items.map` in `mappedItems`. -/
def mapItem (locations : List Location) (stock : List Stock)
    (cc : List (String × String)) (item : InventoryItem) : MappedItem :=
  let allItemStock := stock.filter (fun s => s.itemId == item.id)
  let totalQuantity : Int := (allItemStock.map (·.quantity)).sum
  let quantityInView : Int := totalQuantity
  let locationsWithStock :=
    List.insertionSort (fun a b => localeCompare a.locationName b.locationName ≤ 0)
      (allItemStock.map (fun s =>
        { toStock := s,
          locationName := jsOrOptStr (locationLookup locations s.locationId) "UNKNOWN LOCATION" }))
  let averageUsage := calculateAverageUsage item.priorUsage
  let etr :=
    if 0 < averageUsage ∧ 0 < totalQuantity then
      toFixedOne ((totalQuantity : ℚ) / (averageUsage / 12)) ++ " MONTHS"
    else "N/A"
  let stockTooltip :=
    if 0 < locationsWithStock.length then
      "TOTAL: " ++ toString totalQuantity ++ " | ETR: " ++ etr ++ " | LOCATIONS: " ++
        String.intercalate ", "
          (locationsWithStock.map (fun ls => ls.locationName ++ ": " ++ toString ls.quantity))
    else "TOTAL: 0 | ETR: " ++ etr ++ " | NO STOCK"
  let isLowStock :=
    match item.lowAlertQuantity with
    | some l => decide (totalQuantity ≤ l)
    | none => false
  { id := item.id
    description := item.description
    category := jsOrOptStr item.category "UNCATEGORIZED"
    subCategory := item.subCategory
    priorUsage := item.priorUsage
    lowAlertQuantity := item.lowAlertQuantity
    quantityInView := quantityInView
    totalQuantity := totalQuantity
    etr := etr
    locationsWithStock := locationsWithStock
    stockTooltip := stockTooltip
    accentColor := getItemColor cc item
    isLowStock := isLowStock }

/-- `mappedItems`. -/
def mappedItems (items : List InventoryItem) (locations : List Location)
    (stock : List Stock) (cc : List (String × String)) : List MappedItem :=
  items.map (mapItem locations stock cc)

/-! ## Filter pipeline (`filteredItems`) -/

/-- The search predicate applied when the search text is non-empty. -/
def searchMatch (searchQuery : String) (item : MappedItem) : Bool :=
  let lower := jsToUpper searchQuery
  jsIncludes (jsToUpper item.id) lower ||
  jsIncludes (jsToUpper item.description) lower ||
  jsIncludes (jsToUpper item.category) lower ||
  (jsTruthy item.subCategory && jsIncludes (jsToUpper (item.subCategory.getD "")) lower)

/-- The category-filter predicate (bare or composite `cat|sub` form). -/
def categoryMatch (filterCategory : String) (item : MappedItem) : Bool :=
  if filterCategory.contains '|' then
    let parts := filterCategory.splitOn "|"
    let cat := parts.getD 0 ""
    let sub := parts.getD 1 ""
    jsOrStr item.category "UNCATEGORIZED" == cat && item.subCategory == some sub
  else
    jsOrStr item.category "UNCATEGORIZED" == filterCategory

/-- The location-filter predicate. -/
def locationMatch (filterLocation : String) (item : MappedItem) : Bool :=
  item.locationsWithStock.any (fun l => l.locationId == filterLocation)

/-- `filteredItems`: the three conditional filter stages in source order. -/
def filteredItems (searchQuery filterCategory filterLocation : String)
    (mapped : List MappedItem) : List MappedItem :=
  let r1 := if searchQuery ≠ "" then mapped.filter (searchMatch searchQuery) else mapped
  let r2 := if filterCategory ≠ "" then r1.filter (categoryMatch filterCategory) else r1
  if filterLocation ≠ "" then r2.filter (locationMatch filterLocation) else r2

/-! ## Sort comparator (`sortedItems`) -/

inductive SortKey
  | id
  | description
  | category
  | quantityInView
deriving DecidableEq

inductive SortDirection
  | asc
  | desc
deriving DecidableEq

/-- The comparator closure passed to `sort` in `sortedItems`. -/
def cmpMapped (sortKey : SortKey) (sortDirection : SortDirection)
    (a b : MappedItem) : Int :=
  match sortKey with
  | .category =>
    let catA := jsOrStr a.category ""
    let catB := jsOrStr b.category ""
    let subCatA := jsOrOptStr a.subCategory ""
    let subCatB := jsOrOptStr b.subCategory ""
    let categoryCompare := localeCompare catA catB
    if categoryCompare ≠ 0 then
      match sortDirection with
      | .asc => categoryCompare
      | .desc => -categoryCompare
    else
      let subCategoryCompare := localeCompare subCatA subCatB
      match sortDirection with
      | .asc => subCategoryCompare
      | .desc => -subCategoryCompare
  | .quantityInView =>
    match sortDirection with
    | .asc => a.quantityInView - b.quantityInView
    | .desc => b.quantityInView - a.quantityInView
  | .id =>
    match sortDirection with
    | .asc => localeCompare a.id b.id
    | .desc => localeCompare b.id a.id
  | .description =>
    match sortDirection with
    | .asc => localeCompare a.description b.description
    | .desc => localeCompare b.description a.description

/-- `sortedItems`: a stable sort of the filtered list by the comparator. -/
def sortedItems (k : SortKey) (d : SortDirection) (l : List MappedItem) : List MappedItem :=
  List.insertionSort (fun a b => cmpMapped k d a b ≤ 0) l

/-! ## Grouping (`displayData`) -/

/-- Appending an entry to the bucket of key `k` in an association list,
creating the bucket at the end when absent — the behaviour of
`if (!groups[key]) groups[key] = ...; groups[key].push(e)` on a
JavaScript object, whose keys keep insertion order. -/
def pushAssoc {α : Type} (k : String) (e : α) :
    List (String × List α) → List (String × List α)
  | [] => [(k, [e])]
  | (k₁, es) :: t =>
    if k₁ = k then (k₁, es ++ [e]) :: t else (k₁, es) :: pushAssoc k e t

/-- The group key built for one stock row in location grouping:
the template literal puts a space after the location name and, when a
sub-location detail is truthy, appends a further `" - "` and the detail. -/
def locGroupKey (s : StockWithName) : String :=
  s.locationName ++ " " ++
    (if jsTruthy s.subLocationDetail then " - " ++ s.subLocationDetail.getD "" else "")

/-- `displayData` in location-grouping mode: distribute every
(item, stock-row) pair into the bucket of its key, then sort the groups
by name. -/
def groupByLocation (l : List MappedItem) :
    List (String × List (MappedItem × StockWithName)) :=
  List.insertionSort (fun a b => localeCompare a.1 b.1 ≤ 0)
    ((l.flatMap (fun item =>
        item.locationsWithStock.map (fun s => (locGroupKey s, (item, s))))).foldl
      (fun gs ke => pushAssoc ke.1 ke.2 gs) [])

/-- `displayData` in category-grouping mode: partition by effective category. -/
def groupByCategory (l : List MappedItem) : List (String × List MappedItem) :=
  l.foldl (fun acc item => pushAssoc item.category item acc) []

/-- The quantity a location-grouped row displays
(`renderLocationGroupedRows` shows `stockEntry.quantity`). -/
def locationRowDisplayQuantity (e : MappedItem × StockWithName) : Int :=
  e.2.quantity

/-! ## `handleMoveStock` (`App.tsx`) -/

/-- `Array.prototype.findIndex` together with the element found. -/
def findWithIndex {α : Type} (p : α → Bool) : List α → Option (Nat × α)
  | [] => none
  | x :: xs =>
    if p x then some (0, x)
    else (findWithIndex p xs).map (fun r => (r.1 + 1, r.2))

/-- The state update performed by `handleMoveStock` on the stock
collection: debit the first row matching the source, credit (or create)
the destination row, then drop non-positive rows. -/
def handleMoveStock (stock : List Stock) (itemId fromLocationId toLocationId : String)
    (quantity : Int) (toSubLocationDetail : Option String) : List Stock :=
  match findWithIndex (fun s => s.itemId == itemId && s.locationId == fromLocationId) stock with
  | none => stock
  | some (fromStockIndex, fromStock) =>
    let newStock := stock.set fromStockIndex
      { fromStock with quantity := fromStock.quantity - quantity }
    match findWithIndex (fun s => s.itemId == itemId && s.locationId == toLocationId) newStock with
    | some (toStockIndex, toStock) =>
      (newStock.set toStockIndex
        { toStock with
          quantity := toStock.quantity + quantity,
          subLocationDetail := jsOrOptOpt toSubLocationDetail toStock.subLocationDetail }).filter
        (fun s => decide (0 < s.quantity))
    | none =>
      let pushed : Stock :=
        { itemId := itemId, locationId := toLocationId, quantity := quantity,
          subLocationDetail := toSubLocationDetail, source := fromStock.source,
          poNumber := fromStock.poNumber, dateReceived := fromStock.dateReceived }
      (newStock ++ [pushed]).filter (fun s => decide (0 < s.quantity))

/-- Total stock quantity recorded for one item id in a stock collection. -/
def sumQuantityFor (itemId : String) (l : List Stock) : Int :=
  ((l.filter (fun s => s.itemId == itemId)).map (·.quantity)).sum

/-- The rows of a stock collection that belong to other items. -/
def otherItemsRows (itemId : String) (l : List Stock) : List Stock :=
  l.filter (fun s => !(s.itemId == itemId))

/-! ## Helper lemmas -/

theorem localeCompare_le_iff (a b : String) : localeCompare a b ≤ 0 ↔ a ≤ b := by
  unfold localeCompare
  split_ifs with h1 h2
  · constructor
    · intro _; exact le_of_lt h1
    · intro _; norm_num
  · constructor
    · intro h; norm_num at h
    · intro h; exact absurd h (not_le.2 h2)
  · have hab : a = b := le_antisymm (not_lt.1 h2) (not_lt.1 h1)
    subst hab
    constructor
    · intro _; exact le_refl a
    · intro _; norm_num

theorem sorted_insertionSort_of {α : Type} (r : α → α → Prop) [DecidableRel r]
    (htot : ∀ a b, r a b ∨ r b a) (htrans : ∀ a b c, r a b → r b c → r a c)
    (l : List α) : List.Sorted r (List.insertionSort r l) := by
  haveI : IsTotal α r := ⟨htot⟩
  haveI : IsTrans α r := ⟨fun a b c => htrans a b c⟩
  exact List.sorted_insertionSort r l

theorem mapItem_id (locations : List Location) (stock : List Stock)
    (cc : List (String × String)) (item : InventoryItem) :
    (mapItem locations stock cc item).id = item.id := rfl

theorem mapItem_totalQuantity (locations : List Location) (stock : List Stock)
    (cc : List (String × String)) (item : InventoryItem) :
    (mapItem locations stock cc item).totalQuantity =
      ((stock.filter (fun s => s.itemId == item.id)).map (·.quantity)).sum := rfl

theorem mapItem_isLowStock (locations : List Location) (stock : List Stock)
    (cc : List (String × String)) (item : InventoryItem) :
    (mapItem locations stock cc item).isLowStock =
      (match item.lowAlertQuantity with
        | some l => decide ((mapItem locations stock cc item).totalQuantity ≤ l)
        | none => false) := rfl

theorem mapItem_etr (locations : List Location) (stock : List Stock)
    (cc : List (String × String)) (item : InventoryItem) :
    (mapItem locations stock cc item).etr =
      (if 0 < calculateAverageUsage item.priorUsage ∧
          0 < (mapItem locations stock cc item).totalQuantity then
        toFixedOne (((mapItem locations stock cc item).totalQuantity : ℚ) /
          (calculateAverageUsage item.priorUsage / 12)) ++ " MONTHS"
      else "N/A") := rfl

theorem mapItem_locationsWithStock (locations : List Location) (stock : List Stock)
    (cc : List (String × String)) (item : InventoryItem) :
    (mapItem locations stock cc item).locationsWithStock =
      List.insertionSort (fun a b => localeCompare a.locationName b.locationName ≤ 0)
        ((stock.filter (fun s => s.itemId == item.id)).map (fun s =>
          { toStock := s,
            locationName :=
              jsOrOptStr (locationLookup locations s.locationId) "UNKNOWN LOCATION" })) := rfl

/-! ## Claims -/

/-- C3: for an item with `lowAlertQuantity = L` the derived `isLowStock`
flag is true exactly when `totalQuantity ≤ L` (so it turns false exactly
from `totalQuantity = L + 1` on), and an item without `lowAlertQuantity`
is never flagged. -/
theorem c3_low_stock_flag (locations : List Location) (stock : List Stock)
    (cc : List (String × String)) (item : InventoryItem) :
    (∀ L, item.lowAlertQuantity = some L →
      (((mapItem locations stock cc item).isLowStock = true ↔
          (mapItem locations stock cc item).totalQuantity ≤ L) ∧
        ((mapItem locations stock cc item).isLowStock = false ↔
          L + 1 ≤ (mapItem locations stock cc item).totalQuantity))) ∧
    (item.lowAlertQuantity = none →
      (mapItem locations stock cc item).isLowStock = false) := by
  constructor
  · intro L hL
    rw [mapItem_isLowStock, hL]
    constructor
    · simp
    · simp [not_le, Int.lt_iff_add_one_le]
  · intro hL
    rw [mapItem_isLowStock, hL]

theorem c3_low_stock_flag_witness :
    (mapItem [] [⟨"A", "L1", 5, none, .OH, none, none⟩] []
      ⟨"A", "d", none, none, none, some 10⟩).isLowStock = true :=
  ((c3_low_stock_flag [] [⟨"A", "L1", 5, none, .OH, none, none⟩] []
      ⟨"A", "d", none, none, none, some 10⟩).1 10 rfl).1.mpr (by decide)

/-- C4 counterexample: an item whose `lowAlertQuantity` is `0` and whose
`totalQuantity` is `0` IS flagged low by the code, contrary to the claim
that such an item is never flagged. -/
theorem c4_counterexample :
    (mapItem [] [] [] ⟨"A", "d", none, none, none, some 0⟩).isLowStock = true ∧
    (mapItem [] [] [] ⟨"A", "d", none, none, none, some 0⟩).totalQuantity = 0 ∧
    (⟨"A", "d", none, none, none, some 0⟩ : InventoryItem).lowAlertQuantity = some 0 := by
  decide

/-- C4 (amended): for an item whose `lowAlertQuantity` is defined and
equal to zero, `isLowStock` is true exactly when `totalQuantity ≤ 0` —
in particular the item IS flagged when its total quantity is zero, and
is not flagged for any positive total quantity. -/
theorem c4_zero_alert (locations : List Location) (stock : List Stock)
    (cc : List (String × String)) (item : InventoryItem)
    (h : item.lowAlertQuantity = some 0) :
    (mapItem locations stock cc item).isLowStock = true ↔
      (mapItem locations stock cc item).totalQuantity ≤ 0 := by
  rw [mapItem_isLowStock, h]
  simp

theorem c4_zero_alert_witness :
    (mapItem [] [] [] ⟨"A", "d", none, none, none, some 0⟩).isLowStock = true :=
  (c4_zero_alert [] [] [] ⟨"A", "d", none, none, none, some 0⟩ rfl).mpr (by decide)

/-- C2: when the item has a non-empty usage history, the ETR string is
`totalQuantity / (mean / 12)` formatted to one decimal and suffixed with
`" MONTHS"` whenever both the mean and the total quantity are positive,
and `"N/A"` otherwise; an absent or empty history always gives `"N/A"`;
and the spec example evaluates to `"10.6 MONTHS"`. -/
theorem c2_etr_format (locations : List Location) (stock : List Stock)
    (cc : List (String × String)) (item : InventoryItem) :
    (∀ usages, item.priorUsage = some usages → usages ≠ [] →
      (mapItem locations stock cc item).etr =
        (if 0 < (((usages.map (·.usage)).sum : ℚ) / (usages.length : ℚ)) ∧
            0 < (mapItem locations stock cc item).totalQuantity then
          toFixedOne (((mapItem locations stock cc item).totalQuantity : ℚ) /
            ((((usages.map (·.usage)).sum : ℚ) / (usages.length : ℚ)) / 12)) ++ " MONTHS"
        else "N/A")) ∧
    ((item.priorUsage = none ∨ item.priorUsage = some []) →
      (mapItem locations stock cc item).etr = "N/A") ∧
    (mapItem [] [⟨"A", "L1", 975, none, .OH, none, none⟩] []
      ⟨"A", "d", none, none, some [⟨2023, 1000⟩, ⟨2024, 1100⟩, ⟨2025, 1200⟩], none⟩).etr =
      "10.6 MONTHS" := by
  refine ⟨?_, ?_, ?_⟩
  · intro usages hpu hne
    have hlen : usages.length ≠ 0 := fun h => hne (List.length_eq_zero.mp h)
    rw [mapItem_etr, hpu]
    simp [calculateAverageUsage, hlen]
  · intro hpu
    rcases hpu with h | h <;>
      · rw [mapItem_etr, h]
        simp [calculateAverageUsage]
  · rw [mapItem_etr, mapItem_totalQuantity]
    have havg : calculateAverageUsage
        (some [⟨2023, 1000⟩, ⟨2024, 1100⟩, ⟨2025, 1200⟩]) = 1100 := by
      norm_num [calculateAverageUsage]
    norm_num [havg, toFixedOne, toFixedOneNonneg, List.filter]
    rfl

theorem c2_etr_format_witness :
    (mapItem [] [⟨"A", "L1", 975, none, .OH, none, none⟩] []
      ⟨"A", "d", none, none, some [⟨2023, 1000⟩, ⟨2024, 1100⟩, ⟨2025, 1200⟩], none⟩).etr =
      "10.6 MONTHS" :=
  (c2_etr_format [] [⟨"A", "L1", 975, none, .OH, none, none⟩] []
      ⟨"A", "d", none, none, some [⟨2023, 1000⟩, ⟨2024, 1100⟩, ⟨2025, 1200⟩], none⟩).2.2

theorem searchMatch_iff (q : String) (x : MappedItem) :
    searchMatch q x = true ↔
      (jsIncludes (jsToUpper x.id) (jsToUpper q) = true ∨
       jsIncludes (jsToUpper x.description) (jsToUpper q) = true ∨
       jsIncludes (jsToUpper x.category) (jsToUpper q) = true ∨
       ∃ sub, x.subCategory = some sub ∧ sub ≠ "" ∧
         jsIncludes (jsToUpper sub) (jsToUpper q) = true) := by
  unfold searchMatch jsTruthy
  cases hsc : x.subCategory with
  | none => simp [or_assoc]
  | some s =>
    simp only [hsc, Option.getD_some, Bool.or_eq_true, Bool.and_eq_true,
      decide_eq_true_eq, Option.some.injEq, or_assoc]
    constructor
    · rintro (h | h | h | ⟨hne, hinc⟩)
      · exact Or.inl h
      · exact Or.inr (Or.inl h)
      · exact Or.inr (Or.inr (Or.inl h))
      · exact Or.inr (Or.inr (Or.inr ⟨s, rfl, hne, hinc⟩))
    · rintro (h | h | h | ⟨sub, hsub, hne, hinc⟩)
      · exact Or.inl h
      · exact Or.inr (Or.inl h)
      · exact Or.inr (Or.inr (Or.inl h))
      · cases hsub
        exact Or.inr (Or.inr (Or.inr ⟨hne, hinc⟩))

theorem categoryMatch_iff (fc : String) (x : MappedItem) :
    categoryMatch fc x = true ↔
      (if fc.contains '|' then
        jsOrStr x.category "UNCATEGORIZED" = (fc.splitOn "|").getD 0 "" ∧
          x.subCategory = some ((fc.splitOn "|").getD 1 "")
      else jsOrStr x.category "UNCATEGORIZED" = fc) := by
  unfold categoryMatch
  by_cases h : fc.contains '|' = true
  · simp [h]
  · simp [h]

theorem locationMatch_iff (fl : String) (x : MappedItem) :
    locationMatch fl x = true ↔
      ∃ lws ∈ x.locationsWithStock, lws.locationId = fl := by
  unfold locationMatch
  simp [List.any_eq_true]

theorem filteredItems_mem_iff (searchQuery filterCategory filterLocation : String)
    (mapped : List MappedItem) (x : MappedItem) :
    x ∈ filteredItems searchQuery filterCategory filterLocation mapped ↔
      (x ∈ mapped ∧
        (searchQuery ≠ "" → searchMatch searchQuery x = true) ∧
        (filterCategory ≠ "" → categoryMatch filterCategory x = true) ∧
        (filterLocation ≠ "" → locationMatch filterLocation x = true)) := by
  unfold filteredItems
  by_cases h1 : searchQuery = "" <;> by_cases h2 : filterCategory = "" <;>
    by_cases h3 : filterLocation = "" <;>
    simp [h1, h2, h3, List.mem_filter, and_assoc] <;> tauto

/-- C8: membership in the filter pipeline's output is the conjunction of
the active predicates — the case-insensitive (uppercased both sides)
substring search over id, description, effective category and (when
present) sub-category, the exact match of the bare or composite category
filter against the effective category and sub-category, and the
existence of a stock row at the filtered location. -/
theorem c8_filter_and (searchQuery filterCategory filterLocation : String)
    (mapped : List MappedItem) (x : MappedItem) :
    x ∈ filteredItems searchQuery filterCategory filterLocation mapped ↔
      (x ∈ mapped ∧
        (searchQuery ≠ "" →
          (jsIncludes (jsToUpper x.id) (jsToUpper searchQuery) = true ∨
           jsIncludes (jsToUpper x.description) (jsToUpper searchQuery) = true ∨
           jsIncludes (jsToUpper x.category) (jsToUpper searchQuery) = true ∨
           ∃ sub, x.subCategory = some sub ∧ sub ≠ "" ∧
             jsIncludes (jsToUpper sub) (jsToUpper searchQuery) = true)) ∧
        (filterCategory ≠ "" →
          (if filterCategory.contains '|' then
            jsOrStr x.category "UNCATEGORIZED" = (filterCategory.splitOn "|").getD 0 "" ∧
              x.subCategory = some ((filterCategory.splitOn "|").getD 1 "")
          else jsOrStr x.category "UNCATEGORIZED" = filterCategory)) ∧
        (filterLocation ≠ "" →
          ∃ lws ∈ x.locationsWithStock, lws.locationId = filterLocation)) := by
  rw [filteredItems_mem_iff]
  constructor
  · rintro ⟨hm, hs, hc, hl⟩
    exact ⟨hm, fun h => (searchMatch_iff _ _).mp (hs h),
      fun h => (categoryMatch_iff _ _).mp (hc h),
      fun h => (locationMatch_iff _ _).mp (hl h)⟩
  · rintro ⟨hm, hs, hc, hl⟩
    exact ⟨hm, fun h => (searchMatch_iff _ _).mpr (hs h),
      fun h => (categoryMatch_iff _ _).mpr (hc h),
      fun h => (locationMatch_iff _ _).mpr (hl h)⟩

theorem c8_filter_and_witness :
    mapItem [] [] [] ⟨"AB", "d", none, none, none, none⟩ ∈
      filteredItems "a" "" "" [mapItem [] [] [] ⟨"AB", "d", none, none, none, none⟩] :=
  (c8_filter_and "a" "" "" [mapItem [] [] [] ⟨"AB", "d", none, none, none, none⟩]
      (mapItem [] [] [] ⟨"AB", "d", none, none, none, none⟩)).mpr
    ⟨by decide, fun _ => Or.inl (by decide),
      fun h => absurd rfl h, fun h => absurd rfl h⟩

theorem locationLookup_eq_of_mem (locations : List Location) (loc : Location)
    (hnd : (locations.map (·.id)).Nodup) (hmem : loc ∈ locations) :
    locationLookup locations loc.id = some loc.name := by
  unfold locationLookup
  cases hfind : locations.reverse.find? (fun l => l.id == loc.id) with
  | none =>
    exfalso
    have := List.find?_eq_none.mp hfind loc (List.mem_reverse.mpr hmem)
    simp at this
  | some y =>
    have hy : y.id = loc.id := by simpa using List.find?_some hfind
    have hymem : y ∈ locations := List.mem_reverse.mp (List.mem_of_find?_eq_some hfind)
    have : y = loc := List.inj_on_of_nodup_map hnd hymem hmem hy
    simp [this]

/-- C9 counterexample: a location that exists in the reference set but
has the empty string as its name is reported as `"UNKNOWN LOCATION"`,
not by its (empty) name as the claim requires. -/
theorem c9_counterexample :
    ((mapItem [⟨"L1", "", none⟩] [⟨"A", "L1", 5, none, .OH, none, none⟩] []
        ⟨"A", "d", none, none, none, none⟩).locationsWithStock.map (·.locationName)) =
      ["UNKNOWN LOCATION"] ∧
    (⟨"L1", "", none⟩ : Location).name ≠ "UNKNOWN LOCATION" := by
  decide

/-- C9 (amended): the derived-metrics computation is total by
construction, and each entry of `locationsWithStock` carries the name of
the (unique) location whose id matches provided that name is non-empty;
when no location with that id exists, or when its name is the empty
string, the entry carries the fallback `"UNKNOWN LOCATION"`. -/
theorem c9_location_names (locations : List Location) (stock : List Stock)
    (cc : List (String × String)) (item : InventoryItem)
    (hnd : (locations.map (·.id)).Nodup) :
    ∀ e ∈ (mapItem locations stock cc item).locationsWithStock,
      (∀ loc ∈ locations, loc.id = e.locationId → loc.name ≠ "" →
        e.locationName = loc.name) ∧
      ((∀ loc ∈ locations, loc.id ≠ e.locationId ∨ loc.name = "") →
        e.locationName = "UNKNOWN LOCATION") := by
  intro e he
  rw [mapItem_locationsWithStock, List.mem_insertionSort] at he
  rcases List.mem_map.mp he with ⟨s, _, rfl⟩
  refine ⟨?_, ?_⟩
  · intro loc hloc hid hname
    have hlk : locationLookup locations s.locationId = some loc.name := by
      rw [← hid]
      exact locationLookup_eq_of_mem locations loc hnd hloc
    show jsOrOptStr (locationLookup locations s.locationId) "UNKNOWN LOCATION" = loc.name
    rw [hlk]
    simp [jsOrOptStr, hname]
  · intro hall
    show jsOrOptStr (locationLookup locations s.locationId) "UNKNOWN LOCATION" =
      "UNKNOWN LOCATION"
    unfold locationLookup
    cases hfind : locations.reverse.find? (fun l => l.id == s.locationId) with
    | none => simp [jsOrOptStr]
    | some y =>
      have hy : y.id = s.locationId := by simpa using List.find?_some hfind
      have hymem : y ∈ locations := List.mem_reverse.mp (List.mem_of_find?_eq_some hfind)
      rcases hall y hymem with h | h
      · exact absurd hy h
      · simp [jsOrOptStr, h]

theorem c9_location_names_witness :
    (⟨⟨"A", "L1", 5, none, .OH, none, none⟩, "WH"⟩ : StockWithName).locationName = "WH" :=
  ((c9_location_names [⟨"L1", "WH", none⟩] [⟨"A", "L1", 5, none, .OH, none, none⟩] []
      ⟨"A", "d", none, none, none, none⟩ (by decide)
      ⟨⟨"A", "L1", 5, none, .OH, none, none⟩, "WH"⟩ (by decide)).1
    ⟨"L1", "WH", none⟩ (by decide) rfl (by decide))

theorem perm_append_swap {α : Type} (A B : List α) (x : α) :
    ((A ++ [x]) ++ B).Perm ((A ++ B) ++ [x]) := by
  rw [List.append_assoc, List.append_assoc]
  exact List.Perm.append_left A List.perm_append_comm

theorem flatten_pushAssoc {α : Type} (k : String) (e : α)
    (gs : List (String × List α)) :
    ((pushAssoc k e gs).flatMap (fun g => g.2)).Perm
      ((gs.flatMap (fun g => g.2)) ++ [e]) := by
  induction gs with
  | nil => simp [pushAssoc]
  | cons g₀ t ih =>
    obtain ⟨k₁, es⟩ := g₀
    rw [pushAssoc]
    by_cases hk : k₁ = k
    · rw [if_pos hk]
      simp only [List.flatMap_cons]
      exact perm_append_swap es (t.flatMap (fun g => g.2)) e
    · rw [if_neg hk]
      simp only [List.flatMap_cons]
      refine (List.Perm.append_left es ih).trans ?_
      rw [List.append_assoc]

theorem flatten_foldl_pushAssoc {α : Type} (es : List (String × α))
    (gs : List (String × List α)) :
    ((es.foldl (fun g ke => pushAssoc ke.1 ke.2 g) gs).flatMap (fun g => g.2)).Perm
      ((gs.flatMap (fun g => g.2)) ++ es.map (fun ke => ke.2)) := by
  induction es generalizing gs with
  | nil => simp
  | cons ke t ih =>
    simp only [List.foldl_cons, List.map_cons]
    refine (ih (pushAssoc ke.1 ke.2 gs)).trans ?_
    refine (List.Perm.append_right _ (flatten_pushAssoc ke.1 ke.2 gs)).trans ?_
    rw [List.append_assoc]
    exact List.Perm.refl _

theorem flatten_buildGroups_perm {α : Type} (es : List (String × α)) :
    ((es.foldl (fun g ke => pushAssoc ke.1 ke.2 g) []).flatMap (fun g => g.2)).Perm
      (es.map (fun ke => ke.2)) := by
  simpa using flatten_foldl_pushAssoc es []

theorem pushAssoc_keys {α : Type} (keyf : α → String) (k : String) (e : α)
    (hke : k = keyf e) (gs : List (String × List α))
    (hgs : ∀ g ∈ gs, ∀ x ∈ g.2, g.1 = keyf x) :
    ∀ g ∈ pushAssoc k e gs, ∀ x ∈ g.2, g.1 = keyf x := by
  induction gs with
  | nil =>
    intro g hg x hx
    rw [pushAssoc] at hg
    rcases List.mem_singleton.mp hg with rfl
    rcases List.mem_singleton.mp hx with rfl
    exact hke
  | cons g₀ t ih =>
    intro g hg x hx
    obtain ⟨k₁, es⟩ := g₀
    rw [pushAssoc] at hg
    by_cases hk : k₁ = k
    · rw [if_pos hk] at hg
      rcases List.mem_cons.mp hg with rfl | hg2
      · rcases List.mem_append.mp hx with hx1 | hx2
        · exact hgs (k₁, es) (List.mem_cons_self _ _) x hx1
        · rcases List.mem_singleton.mp hx2 with rfl
          simpa [hk] using hke
      · exact hgs g (List.mem_cons_of_mem _ hg2) x hx
    · rw [if_neg hk] at hg
      rcases List.mem_cons.mp hg with rfl | hg2
      · exact hgs (k₁, es) (List.mem_cons_self _ _) x hx
      · exact ih (fun g₁ hg₁ => hgs g₁ (List.mem_cons_of_mem _ hg₁)) g hg2 x hx

theorem foldl_pushAssoc_keys {α : Type} (keyf : α → String) :
    ∀ (es : List (String × α)) (gs : List (String × List α)),
      (∀ p ∈ es, p.1 = keyf p.2) →
      (∀ g ∈ gs, ∀ x ∈ g.2, g.1 = keyf x) →
      ∀ g ∈ es.foldl (fun g ke => pushAssoc ke.1 ke.2 g) gs, ∀ x ∈ g.2, g.1 = keyf x := by
  intro es
  induction es with
  | nil => intro gs _ hgs; simpa using hgs
  | cons p t ih =>
    intro gs hes hgs
    simp only [List.foldl_cons]
    exact ih _ (fun q hq => hes q (List.mem_cons_of_mem _ hq))
      (pushAssoc_keys keyf p.1 p.2 (hes p (List.mem_cons_self _ _)) gs hgs)

theorem groupByLocation_flatten_perm (l : List MappedItem) :
    ((groupByLocation l).flatMap (fun g => g.2)).Perm
      (l.flatMap (fun it => it.locationsWithStock.map (fun s => (it, s)))) := by
  unfold groupByLocation
  refine (List.Perm.flatMap_right _ (List.perm_insertionSort _ _)).trans ?_
  refine (flatten_buildGroups_perm _).trans ?_
  rw [List.map_flatMap]
  have hmap : (fun (it : MappedItem) =>
      List.map (fun ke => ke.2)
        (it.locationsWithStock.map (fun s => (locGroupKey s, (it, s))))) =
      (fun it => it.locationsWithStock.map (fun s => (it, s))) := by
    funext it
    rw [List.map_map]
    rfl
  rw [hmap]

theorem groupByLocation_keys (l : List MappedItem) :
    ∀ g ∈ groupByLocation l, ∀ e ∈ g.2, g.1 = locGroupKey e.2 := by
  intro g hg e he
  rw [groupByLocation, List.mem_insertionSort] at hg
  refine foldl_pushAssoc_keys (fun e => locGroupKey e.2) _ [] ?_ (by simp) g hg e he
  intro p hp
  rcases List.mem_flatMap.mp hp with ⟨it, _, hp2⟩
  rcases List.mem_map.mp hp2 with ⟨s, _, rfl⟩
  rfl

theorem groupByCategory_flatten_perm (l : List MappedItem) :
    ((groupByCategory l).flatMap (fun g => g.2)).Perm l := by
  unfold groupByCategory
  induction l using List.reverseRecOn with
  | nil => simp
  | append_singleton t x ih =>
    rw [List.foldl_append]
    refine (flatten_pushAssoc x.category x _).trans ?_
    exact List.Perm.append ih (List.Perm.refl [x])

/-- C5 counterexample: the group key built for a stock row is not the
resolved location name (it always carries a trailing space, and a
sub-location detail is joined with an extra space before the dash). -/
theorem c5_counterexample :
    ((groupByLocation (mappedItems [⟨"A", "d", none, none, none, none⟩]
        [⟨"l1", "LOC", none⟩] [⟨"A", "l1", 5, none, .OH, none, none⟩] [])).map (·.1) =
      ["LOC "]) ∧
    (((groupByLocation (mappedItems [⟨"A", "d", none, none, none, none⟩]
        [⟨"l1", "LOC", none⟩] [⟨"A", "l1", 5, none, .OH, none, none⟩] [])).flatMap
        (fun g => g.2)).map (fun e => e.2.locationName) = ["LOC"]) ∧
    ("LOC " : String) ≠ "LOC" := by
  decide

/-- C5 (amended): in location grouping every row is placed in the group
whose key is the row's resolved location name followed by a space, and —
when a non-empty sub-location detail is present — by a further
`" - "` and the detail; the groups are sorted in ascending order of
these keys. -/
theorem c5_location_group_keys (l : List MappedItem) :
    (∀ g ∈ groupByLocation l, ∀ e ∈ g.2,
      g.1 = e.2.locationName ++ " " ++
        (match e.2.subLocationDetail with
          | some d => if d = "" then "" else " - " ++ d
          | none => "")) ∧
    (groupByLocation l).Pairwise (fun g₁ g₂ => g₁.1 ≤ g₂.1) := by
  constructor
  · intro g hg e he
    rw [groupByLocation_keys l g hg e he, locGroupKey]
    cases hd : e.2.subLocationDetail with
    | none => simp [jsTruthy]
    | some d =>
      by_cases hde : d = "" <;> simp [jsTruthy, hde]
  · have hs : List.Sorted (fun g₁ g₂ : String × List (MappedItem × StockWithName) =>
        localeCompare g₁.1 g₂.1 ≤ 0) (groupByLocation l) := by
      rw [groupByLocation]
      refine sorted_insertionSort_of _ ?_ ?_ _
      · intro a b
        rcases le_total a.1 b.1 with h | h
        · exact Or.inl ((localeCompare_le_iff _ _).mpr h)
        · exact Or.inr ((localeCompare_le_iff _ _).mpr h)
      · intro a b c hab hbc
        exact (localeCompare_le_iff _ _).mpr
          (le_trans ((localeCompare_le_iff _ _).mp hab) ((localeCompare_le_iff _ _).mp hbc))
    exact hs.imp (fun h => (localeCompare_le_iff _ _).mp h)

theorem c5_location_group_keys_witness :
    (groupByLocation (mappedItems [⟨"A", "d", none, none, none, none⟩]
        [⟨"l1", "LOC", none⟩] [⟨"A", "l1", 5, some "S1", .OH, none, none⟩] [])).Pairwise
      (fun g₁ g₂ => g₁.1 ≤ g₂.1) :=
  (c5_location_group_keys (mappedItems [⟨"A", "d", none, none, none, none⟩]
      [⟨"l1", "LOC", none⟩] [⟨"A", "l1", 5, some "S1", .OH, none, none⟩] [])).2

theorem mem_pipeline_eq_mapItem {items : List InventoryItem} {locations : List Location}
    {stock : List Stock} {cc : List (String × String)}
    {searchQuery filterCategory filterLocation : String} {k : SortKey} {d : SortDirection}
    {r : MappedItem}
    (hr : r ∈ sortedItems k d (filteredItems searchQuery filterCategory filterLocation
      (mappedItems items locations stock cc))) :
    ∃ item, item ∈ items ∧ r = mapItem locations stock cc item := by
  rw [sortedItems, List.mem_insertionSort] at hr
  have hm := ((filteredItems_mem_iff _ _ _ _ _).mp hr).1
  rcases List.mem_map.mp hm with ⟨item, hi, heq⟩
  exact ⟨item, hi, heq.symm⟩

/-- C6: in location grouping, the grouped entries are a permutation of
the pairs of an item of the filtered-and-sorted list with one of its
stock rows (one grouped row per stock row, none for an item without
stock), the joined rows of an item are exactly the input's stock rows
with its id, and the quantity displayed for a grouped row is that
specific row's own quantity. -/
theorem c6_location_rows (items : List InventoryItem) (locations : List Location)
    (stock : List Stock) (cc : List (String × String))
    (searchQuery filterCategory filterLocation : String) (k : SortKey) (d : SortDirection) :
    ((groupByLocation (sortedItems k d (filteredItems searchQuery filterCategory
        filterLocation (mappedItems items locations stock cc)))).flatMap
        (fun g => g.2)).Perm
      ((sortedItems k d (filteredItems searchQuery filterCategory filterLocation
        (mappedItems items locations stock cc))).flatMap
        (fun it => it.locationsWithStock.map (fun s => (it, s)))) ∧
    (∀ it ∈ sortedItems k d (filteredItems searchQuery filterCategory filterLocation
        (mappedItems items locations stock cc)),
      (it.locationsWithStock.map (·.toStock)).Perm
        (stock.filter (fun s => s.itemId == it.id))) ∧
    (∀ g ∈ groupByLocation (sortedItems k d (filteredItems searchQuery filterCategory
        filterLocation (mappedItems items locations stock cc))),
      ∀ e ∈ g.2, locationRowDisplayQuantity e = e.2.quantity) := by
  refine ⟨groupByLocation_flatten_perm _, ?_, ?_⟩
  · intro it hit
    rcases mem_pipeline_eq_mapItem hit with ⟨item, _, rfl⟩
    rw [mapItem_locationsWithStock, mapItem_id]
    refine ((List.perm_insertionSort _ _).map _).trans ?_
    rw [List.map_map]
    have hco : ((fun sw : StockWithName => sw.toStock) ∘ (fun s =>
        ({ toStock := s,
           locationName :=
             jsOrOptStr (locationLookup locations s.locationId) "UNKNOWN LOCATION" } :
          StockWithName))) = (fun s => s) := rfl
    rw [hco, List.map_id']
  · intro g hg e he
    rfl

theorem c6_location_rows_witness :
    ((mapItem [] [⟨"A", "L1", 2, none, .OH, none, none⟩] []
        ⟨"A", "d", none, none, none, none⟩).locationsWithStock.map (·.toStock)).Perm
      ([⟨"A", "L1", 2, none, .OH, none, none⟩].filter (fun s => s.itemId ==
        (mapItem [] [⟨"A", "L1", 2, none, .OH, none, none⟩] []
          ⟨"A", "d", none, none, none, none⟩).id)) :=
  (c6_location_rows [⟨"A", "d", none, none, none, none⟩] []
      [⟨"A", "L1", 2, none, .OH, none, none⟩] [] "" "" "" .id .asc).2.1
    (mapItem [] [⟨"A", "L1", 2, none, .OH, none, none⟩] []
      ⟨"A", "d", none, none, none, none⟩) (by decide)

/-- C1: every derived record reaching the sorted list or either grouping
mode carries a `totalQuantity` equal to the sum of the quantities of
exactly the input stock rows with its item id, for every search text,
category filter, location filter, sort key, sort direction and grouping
mode. -/
theorem c1_total_quantity (items : List InventoryItem) (locations : List Location)
    (stock : List Stock) (cc : List (String × String))
    (searchQuery filterCategory filterLocation : String) (k : SortKey) (d : SortDirection) :
    (∀ r ∈ sortedItems k d (filteredItems searchQuery filterCategory filterLocation
        (mappedItems items locations stock cc)),
      r.totalQuantity = ((stock.filter (fun s => s.itemId == r.id)).map (·.quantity)).sum) ∧
    (∀ g ∈ groupByLocation (sortedItems k d (filteredItems searchQuery filterCategory
        filterLocation (mappedItems items locations stock cc))),
      ∀ e ∈ g.2, e.1.totalQuantity =
        ((stock.filter (fun s => s.itemId == e.1.id)).map (·.quantity)).sum) ∧
    (∀ g ∈ groupByCategory (sortedItems k d (filteredItems searchQuery filterCategory
        filterLocation (mappedItems items locations stock cc))),
      ∀ r ∈ g.2,
        r.totalQuantity = ((stock.filter (fun s => s.itemId == r.id)).map (·.quantity)).sum) := by
  have main : ∀ r ∈ sortedItems k d (filteredItems searchQuery filterCategory filterLocation
      (mappedItems items locations stock cc)),
      r.totalQuantity = ((stock.filter (fun s => s.itemId == r.id)).map (·.quantity)).sum := by
    intro r hr
    rcases mem_pipeline_eq_mapItem hr with ⟨item, _, rfl⟩
    rw [mapItem_totalQuantity, mapItem_id]
  refine ⟨main, ?_, ?_⟩
  · intro g hg e he
    have hmem : e ∈ (groupByLocation (sortedItems k d (filteredItems searchQuery
        filterCategory filterLocation (mappedItems items locations stock cc)))).flatMap
        (fun g => g.2) := List.mem_flatMap.mpr ⟨g, hg, he⟩
    rw [(groupByLocation_flatten_perm _).mem_iff] at hmem
    rcases List.mem_flatMap.mp hmem with ⟨it, hit, hpair⟩
    rcases List.mem_map.mp hpair with ⟨s, _, rfl⟩
    exact main it hit
  · intro g hg r hr
    have hmem : r ∈ (groupByCategory (sortedItems k d (filteredItems searchQuery
        filterCategory filterLocation (mappedItems items locations stock cc)))).flatMap
        (fun g => g.2) := List.mem_flatMap.mpr ⟨g, hg, hr⟩
    rw [(groupByCategory_flatten_perm _).mem_iff] at hmem
    exact main r hmem

theorem c1_total_quantity_witness :
    (mapItem [] [⟨"A", "L1", 3, none, .OH, none, none⟩, ⟨"B", "L1", 9, none, .OH, none, none⟩]
        [] ⟨"A", "d", none, none, none, none⟩).totalQuantity =
      ((([⟨"A", "L1", 3, none, .OH, none, none⟩, ⟨"B", "L1", 9, none, .OH, none, none⟩] :
          List Stock).filter (fun s => s.itemId ==
            (mapItem []
              [⟨"A", "L1", 3, none, .OH, none, none⟩, ⟨"B", "L1", 9, none, .OH, none, none⟩]
              [] ⟨"A", "d", none, none, none, none⟩).id)).map (·.quantity)).sum :=
  (c1_total_quantity [⟨"A", "d", none, none, none, none⟩] []
      [⟨"A", "L1", 3, none, .OH, none, none⟩, ⟨"B", "L1", 9, none, .OH, none, none⟩] []
      "" "" "" .id .asc).1
    (mapItem [] [⟨"A", "L1", 3, none, .OH, none, none⟩, ⟨"B", "L1", 9, none, .OH, none, none⟩]
      [] ⟨"A", "d", none, none, none, none⟩) (by decide)

theorem cmpMapped_id_asc_le_iff (a b : MappedItem) :
    cmpMapped .id .asc a b ≤ 0 ↔ a.id ≤ b.id :=
  localeCompare_le_iff a.id b.id

theorem cmpMapped_id_desc_le_iff (a b : MappedItem) :
    cmpMapped .id .desc a b ≤ 0 ↔ b.id ≤ a.id :=
  localeCompare_le_iff b.id a.id

/-- C7: on a list whose id values are pairwise distinct, sorting by id
descending yields exactly the reverse of sorting by id ascending. -/
theorem c7_sort_id_reverse (l : List MappedItem) (h : (l.map (·.id)).Nodup) :
    sortedItems .id .desc l = (sortedItems .id .asc l).reverse := by
  have hA : List.Sorted (fun a b => cmpMapped .id .asc a b ≤ 0) (sortedItems .id .asc l) := by
    rw [sortedItems]
    refine sorted_insertionSort_of _ ?_ ?_ _
    · intro a b
      rcases le_total a.id b.id with hle | hle
      · exact Or.inl ((cmpMapped_id_asc_le_iff a b).mpr hle)
      · exact Or.inr ((cmpMapped_id_asc_le_iff b a).mpr hle)
    · intro a b c hab hbc
      exact (cmpMapped_id_asc_le_iff a c).mpr
        (le_trans ((cmpMapped_id_asc_le_iff a b).mp hab) ((cmpMapped_id_asc_le_iff b c).mp hbc))
  have hD : List.Sorted (fun a b => cmpMapped .id .desc a b ≤ 0) (sortedItems .id .desc l) := by
    rw [sortedItems]
    refine sorted_insertionSort_of _ ?_ ?_ _
    · intro a b
      rcases le_total b.id a.id with hle | hle
      · exact Or.inl ((cmpMapped_id_desc_le_iff a b).mpr hle)
      · exact Or.inr ((cmpMapped_id_desc_le_iff b a).mpr hle)
    · intro a b c hab hbc
      exact (cmpMapped_id_desc_le_iff a c).mpr
        (le_trans ((cmpMapped_id_desc_le_iff b c).mp hbc) ((cmpMapped_id_desc_le_iff a b).mp hab))
  have hpA : (sortedItems .id .asc l).Perm l := List.perm_insertionSort _ _
  have hpD : (sortedItems .id .desc l).Perm l := List.perm_insertionSort _ _
  have hndA : ((sortedItems .id .asc l).map (·.id)).Nodup := ((hpA.map _).symm).nodup h
  have hAstrict : (sortedItems .id .asc l).Pairwise (fun a b => a.id < b.id) := by
    have h1 : (sortedItems .id .asc l).Pairwise (fun a b => a.id ≤ b.id) :=
      hA.imp (fun hab => (cmpMapped_id_asc_le_iff _ _).mp hab)
    have h2 : (sortedItems .id .asc l).Pairwise (fun a b => a.id ≠ b.id) :=
      List.pairwise_map.mp hndA
    exact (h1.and h2).imp (fun hc => lt_of_le_of_ne hc.1 hc.2)
  have hDrev : (sortedItems .id .desc l).reverse.Pairwise (fun a b => a.id < b.id) := by
    have h1 : (sortedItems .id .desc l).Pairwise (fun a b => b.id ≤ a.id) :=
      hD.imp (fun hab => (cmpMapped_id_desc_le_iff _ _).mp hab)
    have h1r : (sortedItems .id .desc l).reverse.Pairwise (fun a b => a.id ≤ b.id) :=
      List.pairwise_reverse.mpr h1
    have hpDr : ((sortedItems .id .desc l).reverse).Perm l :=
      (List.reverse_perm _).trans hpD
    have hndD : ((sortedItems .id .desc l).reverse.map (·.id)).Nodup :=
      ((hpDr.map _).symm).nodup h
    have h2 : (sortedItems .id .desc l).reverse.Pairwise (fun a b => a.id ≠ b.id) :=
      List.pairwise_map.mp hndD
    exact (h1r.and h2).imp (fun hc => lt_of_le_of_ne hc.1 hc.2)
  haveI : IsAntisymm MappedItem (fun a b => a.id < b.id) :=
    ⟨fun a b h1 h2 => absurd (lt_trans h1 h2) (lt_irrefl _)⟩
  have hperm : (sortedItems .id .asc l).Perm ((sortedItems .id .desc l).reverse) :=
    hpA.trans (((List.reverse_perm _).trans hpD).symm)
  have heq : sortedItems .id .asc l = (sortedItems .id .desc l).reverse :=
    List.eq_of_perm_of_sorted hperm hAstrict hDrev
  rw [heq, List.reverse_reverse]

theorem c7_sort_id_reverse_witness :
    sortedItems .id .desc (mappedItems [⟨"B", "d", none, none, none, none⟩,
        ⟨"A", "d", none, none, none, none⟩] [] [] []) =
      (sortedItems .id .asc (mappedItems [⟨"B", "d", none, none, none, none⟩,
        ⟨"A", "d", none, none, none, none⟩] [] [] [])).reverse :=
  c7_sort_id_reverse (mappedItems [⟨"B", "d", none, none, none, none⟩,
    ⟨"A", "d", none, none, none, none⟩] [] [] []) (by decide)

theorem findWithIndex_eq_none {α : Type} (p : α → Bool) (l : List α) :
    findWithIndex p l = none ↔ ∀ x ∈ l, p x = false := by
  induction l with
  | nil => simp [findWithIndex]
  | cons x xs ih =>
    rw [findWithIndex]
    by_cases hp : p x
    · simp [hp]
    · simp [hp, Option.map_eq_none', ih]

theorem findWithIndex_eq_some {α : Type} (p : α → Bool) :
    ∀ (l : List α) (i : Nat) (x : α), findWithIndex p l = some (i, x) →
      p x = true ∧ ∃ T D, l = T ++ x :: D ∧ i = T.length ∧
        (∀ y ∈ T, p y = false) ∧ ∀ v, l.set i v = T ++ v :: D := by
  intro l
  induction l with
  | nil => intro i x h; simp [findWithIndex] at h
  | cons a as ih =>
    intro i x h
    rw [findWithIndex] at h
    by_cases hp : p a
    · rw [if_pos hp] at h
      obtain ⟨hi, hx⟩ := Prod.mk.inj (Option.some.inj h)
      subst hx
      subst hi
      exact ⟨hp, [], as, rfl, rfl, by simp, fun v => rfl⟩
    · rw [if_neg hp] at h
      rcases Option.map_eq_some'.mp h with ⟨⟨j, y⟩, hfind, heq⟩
      obtain ⟨hi, hx⟩ := Prod.mk.inj heq
      subst hi
      rcases ih j y hfind with ⟨hpx, T, D, hsplit, hj, hT, hset⟩
      subst hx
      refine ⟨hpx, a :: T, D, ?_, ?_, ?_, ?_⟩
      · rw [hsplit]; rfl
      · simp [hj]
      · intro z hz
        rcases List.mem_cons.mp hz with rfl | hz2
        · exact Bool.eq_false_iff.mpr hp
        · exact hT z hz2
      · intro v
        show a :: as.set j v = (a :: T) ++ v :: D
        rw [hset v]
        rfl

theorem sumQuantityFor_append (itemId : String) (A B : List Stock) :
    sumQuantityFor itemId (A ++ B) = sumQuantityFor itemId A + sumQuantityFor itemId B := by
  unfold sumQuantityFor
  rw [List.filter_append, List.map_append, List.sum_append]

theorem sumQuantityFor_cons (itemId : String) (s : Stock) (l : List Stock) :
    sumQuantityFor itemId (s :: l) =
      (if s.itemId == itemId then s.quantity else 0) + sumQuantityFor itemId l := by
  unfold sumQuantityFor
  by_cases h : (s.itemId == itemId) = true
  · simp [List.filter_cons, h]
  · simp [List.filter_cons, h]

theorem sumQuantityFor_filter_pos (itemId : String) (l : List Stock)
    (h : ∀ s ∈ l, 0 ≤ s.quantity) :
    sumQuantityFor itemId (l.filter (fun s => decide (0 < s.quantity))) =
      sumQuantityFor itemId l := by
  induction l with
  | nil => rfl
  | cons s t ih =>
    have hs := h s (List.mem_cons_self _ _)
    have ht := ih (fun x hx => h x (List.mem_cons_of_mem _ hx))
    by_cases hqp : 0 < s.quantity
    · simp [List.filter_cons, hqp, sumQuantityFor_cons, ht]
    · have h0 : s.quantity = 0 := le_antisymm (not_lt.mp hqp) hs
      simp [List.filter_cons, hqp, sumQuantityFor_cons, ht, h0]

theorem otherItemsRows_append (itemId : String) (A B : List Stock) :
    otherItemsRows itemId (A ++ B) = otherItemsRows itemId A ++ otherItemsRows itemId B :=
  List.filter_append A B

theorem otherItemsRows_cons_match (itemId : String) (s : Stock) (l : List Stock)
    (h : s.itemId = itemId) :
    otherItemsRows itemId (s :: l) = otherItemsRows itemId l := by
  unfold otherItemsRows
  simp [List.filter_cons, h]

theorem otherItemsRows_filter_commute (itemId : String) (p : Stock → Bool) (l : List Stock) :
    otherItemsRows itemId (l.filter p) = (otherItemsRows itemId l).filter p := by
  unfold otherItemsRows
  induction l with
  | nil => rfl
  | cons s t ih =>
    rw [List.filter_cons, List.filter_cons]
    by_cases h1 : p s = true <;> by_cases h2 : (!(s.itemId == itemId)) = true <;>
      simp [List.filter_cons, h1, h2, ih]

theorem otherItemsRows_filter_pos (itemId : String) (l : List Stock)
    (h : ∀ s ∈ l, 0 < s.quantity) :
    (otherItemsRows itemId l).filter (fun s => decide (0 < s.quantity)) =
      otherItemsRows itemId l := by
  apply List.filter_eq_self.mpr
  intro a ha
  simpa using h a (List.mem_of_mem_filter ha)

theorem pos_of_mem_filter_pos (l : List Stock) :
    ∀ s ∈ l.filter (fun s => decide (0 < s.quantity)), 0 < s.quantity := by
  intro s hs
  simpa using (List.mem_filter.mp hs).2

theorem handleMoveStock_none (stock : List Stock)
    (itemId fromLocationId toLocationId : String) (q : Int) (toSub : Option String)
    (hfind : findWithIndex (fun s => s.itemId == itemId && s.locationId == fromLocationId)
      stock = none) :
    handleMoveStock stock itemId fromLocationId toLocationId q toSub = stock := by
  simp [handleMoveStock, hfind]

theorem handleMoveStock_some_some (stock : List Stock)
    (itemId fromLocationId toLocationId : String) (q : Int) (toSub : Option String)
    (i : Nat) (src : Stock) (j : Nat) (tgt : Stock)
    (hfind : findWithIndex (fun s => s.itemId == itemId && s.locationId == fromLocationId)
      stock = some (i, src))
    (hfind2 : findWithIndex (fun s => s.itemId == itemId && s.locationId == toLocationId)
      (stock.set i { src with quantity := src.quantity - q }) = some (j, tgt)) :
    handleMoveStock stock itemId fromLocationId toLocationId q toSub =
      ((stock.set i { src with quantity := src.quantity - q }).set j
        { tgt with
          quantity := tgt.quantity + q,
          subLocationDetail := jsOrOptOpt toSub tgt.subLocationDetail }).filter
        (fun s => decide (0 < s.quantity)) := by
  simp [handleMoveStock, hfind, hfind2]

theorem handleMoveStock_some_none (stock : List Stock)
    (itemId fromLocationId toLocationId : String) (q : Int) (toSub : Option String)
    (i : Nat) (src : Stock)
    (hfind : findWithIndex (fun s => s.itemId == itemId && s.locationId == fromLocationId)
      stock = some (i, src))
    (hfind2 : findWithIndex (fun s => s.itemId == itemId && s.locationId == toLocationId)
      (stock.set i { src with quantity := src.quantity - q }) = none) :
    handleMoveStock stock itemId fromLocationId toLocationId q toSub =
      ((stock.set i { src with quantity := src.quantity - q }) ++
        [(⟨itemId, toLocationId, q, toSub, src.source, src.poNumber,
          src.dateReceived⟩ : Stock)]).filter
        (fun s => decide (0 < s.quantity)) := by
  simp [handleMoveStock, hfind, hfind2]

/-- C10 counterexample: with a pre-existing zero-quantity row of another
item in the state, a valid move (source row present, `0 < q ≤` its
quantity) removes that other item's row, contradicting the claim that
rows of other items are unchanged. -/
theorem c10_counterexample :
    handleMoveStock
        [⟨"A", "L1", 5, none, .OH, none, none⟩, ⟨"B", "L2", 0, none, .OH, none, none⟩]
        "A" "L1" "L3" 1 none =
      [⟨"A", "L1", 4, none, .OH, none, none⟩, ⟨"A", "L3", 1, none, .OH, none, none⟩] ∧
    (⟨"B", "L2", 0, none, .OH, none, none⟩ : Stock) ∈
      [(⟨"A", "L1", 5, none, .OH, none, none⟩ : Stock),
        ⟨"B", "L2", 0, none, .OH, none, none⟩] ∧
    (⟨"B", "L2", 0, none, .OH, none, none⟩ : Stock) ∉
      handleMoveStock
        [⟨"A", "L1", 5, none, .OH, none, none⟩, ⟨"B", "L2", 0, none, .OH, none, none⟩]
        "A" "L1" "L3" 1 none ∧
    ((0 : Int) < 1 ∧ (1 : Int) ≤ 5) := by
  decide

/-- C10 (amended): provided every row of the stock collection has a
positive quantity, a move whose source row exists and whose quantity
satisfies `0 < q ≤` the quantity of every matching source row preserves
the per-item quantity total of the moved item, leaves the rows of every
other item unchanged, and leaves no row with non-positive quantity; and
when no row matches the source, the stock collection is returned
entirely unchanged. -/
theorem c10_move_stock (stock : List Stock) (itemId fromLocationId toLocationId : String)
    (q : Int) (toSub : Option String) :
    ((∀ s ∈ stock, 0 < s.quantity) →
      (∃ r ∈ stock, r.itemId = itemId ∧ r.locationId = fromLocationId) →
      (∀ r ∈ stock, r.itemId = itemId → r.locationId = fromLocationId → q ≤ r.quantity) →
      0 < q →
      (sumQuantityFor itemId
          (handleMoveStock stock itemId fromLocationId toLocationId q toSub) =
        sumQuantityFor itemId stock ∧
      otherItemsRows itemId
          (handleMoveStock stock itemId fromLocationId toLocationId q toSub) =
        otherItemsRows itemId stock ∧
      ∀ s ∈ handleMoveStock stock itemId fromLocationId toLocationId q toSub,
        0 < s.quantity)) ∧
    ((∀ r ∈ stock, ¬(r.itemId = itemId ∧ r.locationId = fromLocationId)) →
      handleMoveStock stock itemId fromLocationId toLocationId q toSub = stock) := by
  constructor
  · intro hpos hex hbound hq
    obtain ⟨r0, hr0mem, hr0id, hr0loc⟩ := hex
    cases hfind : findWithIndex
        (fun s => s.itemId == itemId && s.locationId == fromLocationId) stock with
    | none =>
      exfalso
      have h0 := (findWithIndex_eq_none _ _).mp hfind r0 hr0mem
      simp [hr0id, hr0loc] at h0
    | some res =>
      obtain ⟨i, src⟩ := res
      obtain ⟨hpsrc, T, D, hsplit, hiT, hTf, hset⟩ :=
        findWithIndex_eq_some _ stock i src hfind
      rw [Bool.and_eq_true, beq_iff_eq, beq_iff_eq] at hpsrc
      obtain ⟨hsrcid, hsrcloc⟩ := hpsrc
      have hsrcmem : src ∈ stock := by
        rw [hsplit]; exact List.mem_append_right _ (List.mem_cons_self _ _)
      have hsrcbound : q ≤ src.quantity := hbound src hsrcmem hsrcid hsrcloc
      have hNS : stock.set i { src with quantity := src.quantity - q } =
          T ++ { src with quantity := src.quantity - q } :: D :=
        hset _
      have hTmem : ∀ s ∈ T, s ∈ stock := by
        intro s hs; rw [hsplit]; exact List.mem_append_left _ hs
      have hDmem : ∀ s ∈ D, s ∈ stock := by
        intro s hs; rw [hsplit]
        exact List.mem_append_right _ (List.mem_cons_of_mem _ hs)
      have hnew_nonneg : ∀ s ∈ stock.set i { src with quantity := src.quantity - q },
          0 ≤ s.quantity := by
        rw [hNS]
        intro s hs
        rcases List.mem_append.mp hs with hsT | hsCD
        · exact le_of_lt (hpos s (hTmem s hsT))
        · rcases List.mem_cons.mp hsCD with rfl | hsD
          · simpa using sub_nonneg.mpr hsrcbound
          · exact le_of_lt (hpos s (hDmem s hsD))
      have hnew_sum : sumQuantityFor itemId
          (stock.set i { src with quantity := src.quantity - q }) =
          sumQuantityFor itemId stock - q := by
        rw [hNS, hsplit, sumQuantityFor_append, sumQuantityFor_append,
          sumQuantityFor_cons, sumQuantityFor_cons]
        simp [hsrcid]
        ring
      have hnew_other : otherItemsRows itemId
          (stock.set i { src with quantity := src.quantity - q }) =
          otherItemsRows itemId stock := by
        rw [hNS, hsplit, otherItemsRows_append, otherItemsRows_append,
          otherItemsRows_cons_match _ _ _ (by simpa using hsrcid),
          otherItemsRows_cons_match _ _ _ hsrcid]
      cases hfind2 : findWithIndex
          (fun s => s.itemId == itemId && s.locationId == toLocationId)
          (stock.set i { src with quantity := src.quantity - q }) with
      | some res2 =>
        obtain ⟨j, tgt⟩ := res2
        obtain ⟨hptgt, U, V, hsplit2, hjU, hUf, hset2⟩ :=
          findWithIndex_eq_some _ _ j tgt hfind2
        rw [Bool.and_eq_true, beq_iff_eq, beq_iff_eq] at hptgt
        obtain ⟨htgtid, htgtloc⟩ := hptgt
        have htgtmem : tgt ∈ stock.set i { src with quantity := src.quantity - q } := by
          rw [hsplit2]; exact List.mem_append_right _ (List.mem_cons_self _ _)
        have htgtnn : 0 ≤ tgt.quantity := hnew_nonneg tgt htgtmem
        have hUmem : ∀ s ∈ U, s ∈ stock.set i { src with quantity := src.quantity - q } := by
          intro s hs; rw [hsplit2]; exact List.mem_append_left _ hs
        have hVmem : ∀ s ∈ V, s ∈ stock.set i { src with quantity := src.quantity - q } := by
          intro s hs; rw [hsplit2]
          exact List.mem_append_right _ (List.mem_cons_of_mem _ hs)
        have hS2 : (stock.set i { src with quantity := src.quantity - q }).set j
            { tgt with
              quantity := tgt.quantity + q,
              subLocationDetail := jsOrOptOpt toSub tgt.subLocationDetail } =
            U ++ { tgt with
              quantity := tgt.quantity + q,
              subLocationDetail := jsOrOptOpt toSub tgt.subLocationDetail } :: V :=
          hset2 _
        rw [handleMoveStock_some_some stock itemId fromLocationId toLocationId q toSub
          i src j tgt hfind hfind2]
        have hs2_nonneg : ∀ s ∈ (stock.set i { src with quantity := src.quantity - q }).set j
            { tgt with
              quantity := tgt.quantity + q,
              subLocationDetail := jsOrOptOpt toSub tgt.subLocationDetail },
            0 ≤ s.quantity := by
          rw [hS2]
          intro s hs
          rcases List.mem_append.mp hs with hsU | hsCV
          · exact hnew_nonneg s (hUmem s hsU)
          · rcases List.mem_cons.mp hsCV with rfl | hsV
            · simpa using add_nonneg htgtnn (le_of_lt hq)
            · exact hnew_nonneg s (hVmem s hsV)
        have e1 : sumQuantityFor itemId (U ++ tgt :: V) =
            sumQuantityFor itemId stock - q := by
          rw [← hsplit2, hnew_sum]
        rw [sumQuantityFor_append, sumQuantityFor_cons] at e1
        have e2 : otherItemsRows itemId U ++ otherItemsRows itemId V =
            otherItemsRows itemId stock := by
          have h3 := hnew_other
          rw [hsplit2, otherItemsRows_append,
            otherItemsRows_cons_match _ _ _ htgtid] at h3
          exact h3
        refine ⟨?_, ?_, ?_⟩
        · rw [sumQuantityFor_filter_pos _ _ hs2_nonneg, hS2, sumQuantityFor_append,
            sumQuantityFor_cons]
          simp [htgtid] at e1 ⊢
          linarith [e1]
        · rw [otherItemsRows_filter_commute, hS2, otherItemsRows_append,
            otherItemsRows_cons_match _ _ _ (by simpa using htgtid), e2,
            otherItemsRows_filter_pos _ _ hpos]
        · exact pos_of_mem_filter_pos _
      | none =>
        rw [handleMoveStock_some_none stock itemId fromLocationId toLocationId q toSub
          i src hfind hfind2]
        have happ_nonneg : ∀ s ∈ (stock.set i { src with quantity := src.quantity - q }) ++
            [(⟨itemId, toLocationId, q, toSub, src.source, src.poNumber,
              src.dateReceived⟩ : Stock)], 0 ≤ s.quantity := by
          intro s hs
          rcases List.mem_append.mp hs with hs1 | hs2
          · exact hnew_nonneg s hs1
          · rcases List.mem_singleton.mp hs2 with rfl
            exact le_of_lt hq
        have hpushed : sumQuantityFor itemId
            [(⟨itemId, toLocationId, q, toSub, src.source, src.poNumber,
              src.dateReceived⟩ : Stock)] = q := by
          simp [sumQuantityFor]
        refine ⟨?_, ?_, ?_⟩
        · rw [sumQuantityFor_filter_pos _ _ happ_nonneg, sumQuantityFor_append,
            hnew_sum, hpushed]
          ring
        · have hnil : otherItemsRows itemId ([] : List Stock) = [] := rfl
          rw [otherItemsRows_filter_commute, otherItemsRows_append,
            otherItemsRows_cons_match itemId
              (⟨itemId, toLocationId, q, toSub, src.source, src.poNumber,
                src.dateReceived⟩ : Stock) [] rfl,
            hnil, List.append_nil, hnew_other, otherItemsRows_filter_pos _ _ hpos]
        · exact pos_of_mem_filter_pos _
  · intro hnone
    apply handleMoveStock_none
    rw [findWithIndex_eq_none]
    intro x hx
    have hn := hnone x hx
    by_cases h1 : x.itemId = itemId
    · by_cases h2 : x.locationId = fromLocationId
      · exact absurd ⟨h1, h2⟩ hn
      · simp [h1, h2]
    · simp [h1]

theorem c10_move_stock_witness :
    sumQuantityFor "A" (handleMoveStock [⟨"A", "L1", 5, none, .OH, none, none⟩]
        "A" "L1" "L2" 2 none) =
      sumQuantityFor "A" [⟨"A", "L1", 5, none, .OH, none, none⟩] :=
  ((c10_move_stock [⟨"A", "L1", 5, none, .OH, none, none⟩] "A" "L1" "L2" 2 none).1
    (by decide) ⟨⟨"A", "L1", 5, none, .OH, none, none⟩, by decide, rfl, rfl⟩
    (by decide) (by decide)).1

end EmInventory
